import Mathlib

/-!
Shallow embedding of `src/rclone_tui/__main__.py`: the dual-pane file
browser (`FilePanel`), the shared directory-size cache, selection
aggregation, and the transfer-runner command construction.  Filesystem
effects (`os.listdir`, `os.path.isdir`, `os.path.isfile`,
`os.path.getsize`) are abstracted into an `FS` record; subprocess and
log-file outcomes into a `RunEnv` record.  Python's unbounded ints are
`Int`, its `None`-able sizes are `Option Int`, the `size_cache` dict is
an association list, and a panel's `selected` set is a duplicate-free
`List String`.  String operations are implemented on the character
lists underlying `String` so that all definitions evaluate by kernel
reduction on concrete inputs.
-/

namespace RcloneTui

/-! ### POSIX path helpers (`os.path.join`, `os.path.basename`, `os.path.dirname`) -/

/-- `os.path.join a b` for POSIX paths: if `b` is absolute it wins;
otherwise a separator is inserted unless `a` is empty or already ends
with one. -/
def joinPath (a b : String) : String :=
  if b.data.head? = some '/' then b
  else if a = "" then a ++ b
  else if a.data.getLast? = some '/' then a ++ b
  else a ++ "/" ++ b

/-- `os.path.basename p`: the part after the last `/` (empty if `p`
ends with `/`). -/
def basename (p : String) : String :=
  String.mk ((p.data.reverse.takeWhile (fun c => c != '/')).reverse)

/-- `os.path.dirname p`: everything before the last `/`, with trailing
separators stripped unless the result is all separators. -/
def dirname (p : String) : String :=
  let rev := p.data.reverse
  let headRev := rev.dropWhile (fun c => c != '/')
  if headRev = [] then ""
  else if headRev.all (fun c => c = '/') then String.mk headRev.reverse
  else String.mk ((headRev.dropWhile (fun c => c = '/')).reverse)

/-- `str.lower()` (ASCII case folding, as used by the sort key). -/
def lowerStr (s : String) : String := String.mk (s.data.map Char.toLower)

/-- `line.rstrip("\n")` as applied by `append_output`. -/
def rstripNewline (s : String) : String :=
  String.mk ((s.data.reverse.dropWhile (fun c => c = '\n')).reverse)

/-- Lexicographic `≤` on character lists by code point, i.e. Python's
string comparison. -/
def charListLe : List Char → List Char → Bool
  | [], _ => true
  | _ :: _, [] => false
  | a :: as, b :: bs => if a = b then charListLe as bs else decide (a < b)

/-! ### Abstract filesystem -/

/-- The filesystem operations the panel code performs.  `listdir`
returns `none` when `os.listdir` raises (the code catches the exception
and substitutes an empty listing); `getsize` returns `none` when
`os.path.getsize` raises. -/
structure FS where
  listdir : String → Option (List String)
  isDir : String → Bool
  isFile : String → Bool
  getsize : String → Option Int

/-! ### Size cache

Python's global `size_cache` dict: a key mapped to `none` is the
*pending* sentinel (`size_cache[full] = None`), a key mapped to
`some v` is a finished computation.  Lookup takes the most recent
binding, like a dict read after the corresponding write. -/

abbrev SizeCache := List (String × Option Int)

/-- Dict read: `size_cache[full]` if present. -/
def cacheFind (c : SizeCache) (k : String) : Option (Option Int) :=
  List.lookup k c

/-- Dict write: `size_cache[k] = v`. -/
def cacheSet (c : SizeCache) (k : String) (v : Option Int) : SizeCache :=
  (k, v) :: c

/-- Whether the cache holds a *final* value for `k` (present and not
the pending sentinel). -/
def cacheFinal (c : SizeCache) (k : String) : Bool :=
  match cacheFind c k with
  | some (some _) => true
  | _ => false

/-- The final value the cache holds for `k`, defaulting to `0`. -/
def cacheValue (c : SizeCache) (k : String) : Int :=
  match cacheFind c k with
  | some (some v) => v
  | _ => 0

/-! ### FilePanel -/

/-- State of one browser pane (`FilePanel.__init__` fields).  The
Python `selected` set is modelled as a duplicate-free list. -/
structure FilePanel where
  path : String
  files : List String
  cursor : Int
  selected : List String
  scroll_offset : Int
deriving DecidableEq

/-- The first component of the sort key used by `refresh`:
`0 if isdir(join(path, n)) else 1`. -/
def entryRank (fs : FS) (dir n : String) : Nat :=
  if fs.isDir (joinPath dir n) then 0 else 1

/-- Boolean `≤` on the Python sort keys
`(0 if isdir(...) else 1, n.lower())`, compared lexicographically. -/
def entryLe (fs : FS) (dir : String) (a b : String) : Bool :=
  decide (entryRank fs dir a < entryRank fs dir b) ||
    (decide (entryRank fs dir a = entryRank fs dir b) &&
      charListLe (lowerStr a).data (lowerStr b).data)

/-- `sorted(entries, key=...)`: a stable sort by the tuple key
(insertion sort is stable, like Python's sort). -/
def sortEntries (fs : FS) (dir : String) (entries : List String) : List String :=
  List.insertionSort (fun a b => entryLe fs dir a b = true) entries

/-- `FilePanel.refresh`: relist (empty listing on failure), sort, put
the parent marker first, clamp the cursor, reset the scroll offset. -/
def refresh (fs : FS) (p : FilePanel) : FilePanel :=
  let entries := (fs.listdir p.path).getD []
  let files := ".." :: sortEntries fs p.path entries
  { p with
    files := files
    cursor := max 0 (min p.cursor ((files.length : Int) - 1))
    scroll_offset := 0 }

/-- `FilePanel.__init__(path)`: fresh fields, then `refresh()`. -/
def initPanel (fs : FS) (path : String) : FilePanel :=
  refresh fs { path := path, files := [], cursor := 0, selected := [], scroll_offset := 0 }

/-- `FilePanel.move_cursor(delta, max_rows)`. -/
def move_cursor (p : FilePanel) (delta : Int) (max_rows : Option Int) : FilePanel :=
  let cursor := max 0 (min ((p.files.length : Int) - 1) (p.cursor + delta))
  let so :=
    match max_rows with
    | none => p.scroll_offset
    | some m =>
      if cursor < p.scroll_offset then cursor
      else if p.scroll_offset + m ≤ cursor then cursor - m + 1
      else p.scroll_offset
  { p with cursor := cursor, scroll_offset := so }

/-- `self.files[self.cursor]`, as an `Option`: `none` models the fault
case (index out of range).  Reachable panel states keep the cursor in
bounds, so the fault never occurs there. -/
def currentChoice (p : FilePanel) : Option String :=
  if p.cursor < 0 then none else p.files.get? p.cursor.toNat

/-- `FilePanel.enter()`. -/
def enter (fs : FS) (p : FilePanel) : FilePanel :=
  match currentChoice p with
  | none => p
  | some choice =>
    if choice = ".." then
      let d := dirname p.path
      refresh fs { p with path := if d = "" then "/" else d }
    else
      let new_path := joinPath p.path choice
      if fs.isDir new_path then refresh fs { p with path := new_path }
      else refresh fs p

/-- `FilePanel.toggle_select()`. -/
def toggle_select (p : FilePanel) : FilePanel :=
  match currentChoice p with
  | none => p
  | some choice =>
    if choice = ".." then p
    else
      let full := joinPath p.path choice
      if full ∈ p.selected then { p with selected := p.selected.erase full }
      else { p with selected := full :: p.selected }

/-- `FilePanel.current_item_size()`.  Returns the size result, the
updated `size_cache`, and whether a background size-computation thread
was spawned by this call. -/
def current_item_size (fs : FS) (cache : SizeCache) (p : FilePanel) :
    Option Int × SizeCache × Bool :=
  match currentChoice p with
  | none => (none, cache, false)
  | some choice =>
    if choice = ".." then (none, cache, false)
    else
      let full := joinPath p.path choice
      if fs.isFile full then (fs.getsize full, cache, false)
      else if fs.isDir full then
        match cacheFind cache full with
        | some (some v) => (some v, cache, false)
        | _ => (none, cacheSet cache full none, true)
      else (none, cache, false)

/-! ### Selection aggregation (`aggregate_selection_size`) -/

/-- `list(src_panel.selected) + list(dst_panel.selected)`. -/
def selectionList (src dst : FilePanel) : List String :=
  src.selected ++ dst.selected

/-- One iteration of the `for path in all_selected` loop, accumulating
`(total, pending)`. -/
def aggStep (fs : FS) (cache : SizeCache) (acc : Int × Bool) (path : String) :
    Int × Bool :=
  if fs.isFile path then
    match fs.getsize path with
    | some n => (acc.1 + n, acc.2)
    | none => acc
  else if fs.isDir path then
    match cacheFind cache path with
    | some (some v) => (acc.1 + v, acc.2)
    | _ => (acc.1, true)
  else acc

/-- `aggregate_selection_size(src_panel, dst_panel)`: returns
`(total, pending, len(all_selected))`. -/
def aggregate_selection_size (fs : FS) (cache : SizeCache) (src dst : FilePanel) :
    Int × Bool × Nat :=
  let all := selectionList src dst
  let r := all.foldl (aggStep fs cache) (0, false)
  (r.1, r.2, all.length)

/-! ### Transfer runner (`run_rclone`) -/

/-- `LOGFILE_DEFAULT`. -/
def LOGFILE_DEFAULT : String := "/var/log/rclone_tui.log"

/-- Outcome of `subprocess.Popen` + streaming in attached mode:
either the tool binary is missing (`FileNotFoundError`) or the process
runs, yielding its merged output lines and an exit code. -/
inductive AttachedOutcome where
  | notFound
  | ok (lines : List String) (rc : Int)

/-- Outcome of `open(logfile, "a")` + `subprocess.Popen` in detached
mode: success, `FileNotFoundError`, or `PermissionError` from the log
file. -/
inductive DetachedOutcome where
  | ok
  | notFound
  | permDenied

/-- The environment `run_rclone` interacts with: `os.path.isdir` plus
the outcome of each subprocess invocation. -/
structure RunEnv where
  isDir : String → Bool
  attachedRun : List String → AttachedOutcome
  detachedStart : List String → DetachedOutcome

/-- The effective destination: `dst = dst_path`, replaced by
`os.path.join(dst_path, os.path.basename(src))` when `src` is a
directory. -/
def effectiveDst (isDir : String → Bool) (src dst_path : String) : String :=
  if isDir src then joinPath dst_path (basename src) else dst_path

/-- The command list built for one source:
`cmd = ["rclone", operation, src, dst]`, then `-P` appended for
progress output or `-vv` for log output. -/
def buildCmd (isDir : String → Bool) (operation src dst_path output_type : String) :
    List String :=
  let cmd := ["rclone", operation, src, effectiveDst isDir src dst_path]
  if output_type = "progress" then cmd ++ ["-P"]
  else if output_type = "log" then cmd ++ ["-vv"]
  else cmd

/-- The `rclone not found` message. -/
def notFoundMsg : String := "rclone not found. Install rclone and ensure it is on PATH."

/-- One iteration of the `for src in src_files` loop: the output lines
appended (each through `append_output`'s `rstrip("\n")`) and the
command list built for this source. -/
def runOne (env : RunEnv) (operation src dst_path mode output_type : String) :
    List String × List String :=
  let dst := effectiveDst env.isDir src dst_path
  let cmd := buildCmd env.isDir operation src dst_path output_type
  if mode = "attached" then
    match env.attachedRun cmd with
    | .ok lines rc =>
      (lines.map rstripNewline ++
        [rstripNewline s!"Completed {operation} {src} -> {dst} (exit {rc})"], cmd)
    | .notFound => ([rstripNewline notFoundMsg], cmd)
  else
    match env.detachedStart cmd with
    | .ok =>
      ([rstripNewline s!"Detached {operation} job started for {src}. Logs: {LOGFILE_DEFAULT}"], cmd)
    | .notFound => ([rstripNewline notFoundMsg], cmd)
    | .permDenied => ([rstripNewline s!"Cannot write log file: {LOGFILE_DEFAULT}"], cmd)

/-- `run_rclone(operation, src_files, dst_path, mode, output_type, ...)`:
returns the sequence of output lines appended and the list of command
invocations built, per source, in order. -/
def run_rclone (env : RunEnv) (operation : String) (src_files : List String)
    (dst_path mode output_type : String) : List String × List (List String) :=
  if src_files = [] then (["No items selected."], [])
  else
    src_files.foldl
      (fun acc src =>
        let r := runOne env operation src dst_path mode output_type
        (acc.1 ++ r.1, acc.2 ++ [r.2]))
      ([], [])

/-- The numeric contribution of one selected path in the aggregation
loop. -/
def aggContrib (fs : FS) (cache : SizeCache) (q : String) : Int :=
  if fs.isFile q then (fs.getsize q).getD 0
  else if fs.isDir q then (if cacheFinal cache q then cacheValue cache q else 0)
  else 0

/-- Whether one selected path makes the aggregation loop set
`pending`. -/
def aggPendingFlag (fs : FS) (cache : SizeCache) (q : String) : Bool :=
  !fs.isFile q && (fs.isDir q && !cacheFinal cache q)

/-- Sum of byte sizes of the selected paths that are regular files, as
the spec words it. -/
def specFileTotal (fs : FS) (sel : List String) : Int :=
  ((sel.filter (fun q => fs.isFile q)).map (fun q => (fs.getsize q).getD 0)).sum

/-- Sum of the cached final sizes of the selected paths that are
directories with a final cache entry, as the spec words it. -/
def specDirTotal (fs : FS) (cache : SizeCache) (sel : List String) : Int :=
  ((sel.filter (fun q => fs.isDir q && cacheFinal cache q)).map
    (fun q => cacheValue cache q)).sum

/-- The invocation as the spec describes it: the tool name, the
operation verb, the source, the effective destination (destination
joined with the source's base name for a directory source, unchanged
for a file source), plus a progress flag for progress output or a
verbose flag for log output. -/
def specInvocation (isDir : String → Bool) (operation src dst_path output_type : String) :
    List String :=
  ["rclone", operation, src,
    if isDir src then joinPath dst_path (basename src) else dst_path] ++
    (if output_type = "progress" then ["-P"]
     else if output_type = "log" then ["-vv"]
     else [])

/-! ### Reachable panel states

`Reachable` closes the initial state under the four panel operations
(`refresh`, `move_cursor` with any `max_rows`, `enter`,
`toggle_select`), each step under an arbitrary filesystem view (the
filesystem may change between steps).  `ReachableB vr` is the same but
with every `move_cursor` call bounded by the fixed visible-row count
`vr`, as the dashboard loop does with `panel_h - 4`. -/

inductive Reachable : FilePanel → Prop where
  | init (fs : FS) (path : String) : Reachable (initPanel fs path)
  | refreshStep (fs : FS) {p : FilePanel} : Reachable p → Reachable (refresh fs p)
  | moveStep (delta : Int) (mr : Option Int) {p : FilePanel} :
      Reachable p → Reachable (move_cursor p delta mr)
  | enterStep (fs : FS) {p : FilePanel} : Reachable p → Reachable (enter fs p)
  | toggleStep {p : FilePanel} : Reachable p → Reachable (toggle_select p)

inductive ReachableB (vr : Int) : FilePanel → Prop where
  | init (fs : FS) (path : String) : ReachableB vr (initPanel fs path)
  | refreshStep (fs : FS) {p : FilePanel} : ReachableB vr p → ReachableB vr (refresh fs p)
  | moveStep (delta : Int) {p : FilePanel} :
      ReachableB vr p → ReachableB vr (move_cursor p delta (some vr))
  | enterStep (fs : FS) {p : FilePanel} : ReachableB vr p → ReachableB vr (enter fs p)
  | toggleStep {p : FilePanel} : ReachableB vr p → ReachableB vr (toggle_select p)

/-! ### Concrete fixtures used by witnesses and counterexamples -/

/-- A root directory holding three plain files `a`, `b`, `c`. -/
def fsW : FS :=
  { listdir := fun _ => some ["a", "b", "c"]
    isDir := fun _ => false
    isFile := fun _ => true
    getsize := fun _ => none }

/-- The spec scenario filesystem: root holds `dirA` (a directory) and
`fileB.txt` (a 100-byte file). -/
def fsScen : FS :=
  { listdir := fun p => if p = "/" then some ["fileB.txt", "dirA"] else some []
    isDir := fun q => q = "/dirA"
    isFile := fun q => q = "/fileB.txt"
    getsize := fun q => if q = "/fileB.txt" then some 100 else none }

/-- A directory `/d` containing one subdirectory `sub`. -/
def fsSub : FS :=
  { listdir := fun _ => some ["sub"]
    isDir := fun q => q = "/d/sub" || q = "/d"
    isFile := fun _ => false
    getsize := fun _ => none }

/-- Panel sitting in `/d` with the cursor on the subdirectory `sub`. -/
def pSub : FilePanel :=
  { path := "/d", files := ["..", "sub"], cursor := 1, selected := [], scroll_offset := 0 }

/-- Panel with the cursor on the parent marker. -/
def pDot : FilePanel :=
  { path := "/x", files := ["..", "a"], cursor := 0, selected := ["/x/a"], scroll_offset := 0 }

/-- A reachable state violating the window invariant: scroll down to
the last of four rows with a two-row window, then `refresh` (which
resets `scroll_offset` to `0` but keeps the clamped cursor). -/
def pBad : FilePanel :=
  refresh fsW
    (move_cursor (move_cursor (move_cursor (initPanel fsW "/") 1 (some 2)) 1 (some 2)) 1 (some 2))

/-- Transfer environment where the tool binary is absent. -/
def envAbsent : RunEnv :=
  { isDir := fun _ => false
    attachedRun := fun _ => .notFound
    detachedStart := fun _ => .notFound }

/-- Transfer environment where opening the detached log file raises
`PermissionError`. -/
def envPerm : RunEnv :=
  { isDir := fun _ => false
    attachedRun := fun _ => .ok [] 0
    detachedStart := fun _ => .permDenied }

/-- Panel whose selection holds the scenario file. -/
def pSelFile : FilePanel :=
  { path := "/", files := [".."], cursor := 0, selected := ["/fileB.txt"], scroll_offset := 0 }

/-- Panel whose selection holds the scenario directory. -/
def pSelDir : FilePanel :=
  { path := "/", files := [".."], cursor := 0, selected := ["/dirA"], scroll_offset := 0 }

/-- Cache after the scenario directory size resolved to 500 bytes. -/
def cacheScen : SizeCache := [("/dirA", some 500)]

/-! ### Projection lemmas -/

theorem refresh_files (fs : FS) (p : FilePanel) :
    (refresh fs p).files = ".." :: sortEntries fs p.path ((fs.listdir p.path).getD []) := rfl

theorem refresh_cursor (fs : FS) (p : FilePanel) :
    (refresh fs p).cursor = max 0 (min p.cursor (((refresh fs p).files.length : Int) - 1)) := rfl

theorem refresh_scroll (fs : FS) (p : FilePanel) : (refresh fs p).scroll_offset = 0 := rfl

theorem move_cursor_files (p : FilePanel) (delta : Int) (mr : Option Int) :
    (move_cursor p delta mr).files = p.files := rfl

theorem move_cursor_cursor (p : FilePanel) (delta : Int) (mr : Option Int) :
    (move_cursor p delta mr).cursor =
      max 0 (min ((p.files.length : Int) - 1) (p.cursor + delta)) := rfl

theorem move_cursor_scroll (p : FilePanel) (delta vr : Int) :
    (move_cursor p delta (some vr)).scroll_offset =
      (if max 0 (min ((p.files.length : Int) - 1) (p.cursor + delta)) < p.scroll_offset then
        max 0 (min ((p.files.length : Int) - 1) (p.cursor + delta))
      else if p.scroll_offset + vr ≤ max 0 (min ((p.files.length : Int) - 1) (p.cursor + delta)) then
        max 0 (min ((p.files.length : Int) - 1) (p.cursor + delta)) - vr + 1
      else p.scroll_offset) := rfl

theorem toggle_select_path (p : FilePanel) : (toggle_select p).path = p.path := by
  unfold toggle_select
  cases currentChoice p with
  | none => rfl
  | some c =>
    dsimp only
    split_ifs <;> rfl

theorem toggle_select_files (p : FilePanel) : (toggle_select p).files = p.files := by
  unfold toggle_select
  cases currentChoice p with
  | none => rfl
  | some c =>
    dsimp only
    split_ifs <;> rfl

theorem toggle_select_cursor (p : FilePanel) : (toggle_select p).cursor = p.cursor := by
  unfold toggle_select
  cases currentChoice p with
  | none => rfl
  | some c =>
    dsimp only
    split_ifs <;> rfl

theorem toggle_select_scroll (p : FilePanel) :
    (toggle_select p).scroll_offset = p.scroll_offset := by
  unfold toggle_select
  cases currentChoice p with
  | none => rfl
  | some c =>
    dsimp only
    split_ifs <;> rfl

/-- `enter` either ends in a `refresh` or (in the out-of-range fault
branch) returns the panel unchanged. -/
theorem enter_eq_refresh_or_self (fs : FS) (p : FilePanel) :
    (∃ q : FilePanel, enter fs p = refresh fs q) ∨ enter fs p = p := by
  unfold enter
  cases currentChoice p with
  | none => exact Or.inr rfl
  | some c =>
    dsimp only
    split_ifs <;> exact Or.inl ⟨_, rfl⟩

/-! ### Cursor-clamp and scroll-window arithmetic -/

theorem clamp_nonneg (x y : Int) : 0 ≤ max 0 (min x y) := le_max_left 0 _

theorem clamp_lt_left (x L : Int) (h : 1 ≤ L) : max 0 (min (L - 1) x) < L := by
  have h1 : min (L - 1) x ≤ L - 1 := min_le_left _ _
  have h2 : max 0 (min (L - 1) x) ≤ L - 1 := max_le (by omega) h1
  omega

theorem clamp_lt_right (x L : Int) (h : 1 ≤ L) : max 0 (min x (L - 1)) < L := by
  have h1 : min x (L - 1) ≤ L - 1 := min_le_right _ _
  have h2 : max 0 (min x (L - 1)) ≤ L - 1 := max_le (by omega) h1
  omega

/-- After a `move_cursor` with a bounded window of at least one row,
the cursor lies inside the visible window — for any starting state. -/
theorem move_cursor_window (p : FilePanel) (delta vr : Int) (h : 1 ≤ vr) :
    (move_cursor p delta (some vr)).scroll_offset ≤ (move_cursor p delta (some vr)).cursor ∧
      (move_cursor p delta (some vr)).cursor <
        (move_cursor p delta (some vr)).scroll_offset + vr := by
  rw [move_cursor_cursor, move_cursor_scroll]
  set c := max 0 (min ((p.files.length : Int) - 1) (p.cursor + delta)) with hc
  split_ifs <;> constructor <;> omega

/-- After any `move_cursor` on a panel with a non-empty listing, the
cursor is inside `[0, len(files) - 1]`. -/
theorem move_cursor_in_range (p : FilePanel) (delta : Int) (mr : Option Int)
    (hne : p.files ≠ []) :
    0 ≤ (move_cursor p delta mr).cursor ∧
      (move_cursor p delta mr).cursor < ((move_cursor p delta mr).files.length : Int) := by
  rw [move_cursor_cursor, move_cursor_files]
  have hL : 1 ≤ (p.files.length : Int) := by
    have h0 : p.files.length ≠ 0 := by simpa [List.length_eq_zero] using hne
    omega
  exact ⟨clamp_nonneg _ _, clamp_lt_left _ _ hL⟩

/-- `refresh` always re-establishes the cursor bounds, whatever the
input state. -/
theorem refresh_cursor_in_range (fs : FS) (p : FilePanel) :
    0 ≤ (refresh fs p).cursor ∧
      (refresh fs p).cursor < ((refresh fs p).files.length : Int) := by
  rw [refresh_cursor]
  have hL : 1 ≤ ((refresh fs p).files.length : Int) := by
    rw [refresh_files]
    simp
  exact ⟨clamp_nonneg _ _, clamp_lt_right _ _ hL⟩

/-! ### The listing order is a total preorder -/

theorem charListLe_trans :
    ∀ {x y z : List Char}, charListLe x y = true → charListLe y z = true →
      charListLe x z = true
  | [], _, _, _, _ => rfl
  | _ :: _, [], _, hxy, _ => by simp [charListLe] at hxy
  | _ :: _, _ :: _, [], _, hyz => by simp [charListLe] at hyz
  | a :: as, b :: bs, c :: cs, hxy, hyz => by
    simp only [charListLe] at hxy hyz ⊢
    by_cases hab : a = b
    · subst hab
      rw [if_pos rfl] at hxy
      by_cases hac : a = c
      · subst hac
        rw [if_pos rfl] at hyz ⊢
        exact charListLe_trans hxy hyz
      · rw [if_neg hac] at hyz ⊢
        exact hyz
    · rw [if_neg hab] at hxy
      have hlt : a < b := of_decide_eq_true hxy
      by_cases hbc : b = c
      · subst hbc
        rw [if_neg hab]
        exact hxy
      · rw [if_neg hbc] at hyz
        have hlt' : b < c := of_decide_eq_true hyz
        have : a < c := lt_trans hlt hlt'
        rw [if_neg (ne_of_lt this)]
        exact decide_eq_true this

theorem charListLe_total :
    ∀ x y : List Char, charListLe x y = true ∨ charListLe y x = true
  | [], _ => Or.inl rfl
  | _ :: _, [] => Or.inr rfl
  | a :: as, b :: bs => by
    simp only [charListLe]
    by_cases hab : a = b
    · subst hab
      rw [if_pos rfl, if_pos rfl]
      exact charListLe_total as bs
    · rw [if_neg hab, if_neg (Ne.symm hab)]
      rcases lt_or_gt_of_ne hab with h | h
      · exact Or.inl (decide_eq_true h)
      · exact Or.inr (decide_eq_true h)

theorem entryLe_trans (fs : FS) (dir : String) {a b c : String}
    (hab : entryLe fs dir a b = true) (hbc : entryLe fs dir b c = true) :
    entryLe fs dir a c = true := by
  simp only [entryLe, Bool.or_eq_true, Bool.and_eq_true, decide_eq_true_iff] at hab hbc ⊢
  rcases hab with h1 | ⟨h1, h1'⟩
  · rcases hbc with h2 | ⟨h2, _⟩
    · exact Or.inl (lt_trans h1 h2)
    · exact Or.inl (h2 ▸ h1)
  · rcases hbc with h2 | ⟨h2, h2'⟩
    · exact Or.inl (h1 ▸ h2)
    · exact Or.inr ⟨h1.trans h2, charListLe_trans h1' h2'⟩

theorem entryLe_total (fs : FS) (dir : String) (a b : String) :
    entryLe fs dir a b = true ∨ entryLe fs dir b a = true := by
  simp only [entryLe, Bool.or_eq_true, Bool.and_eq_true, decide_eq_true_iff]
  rcases Nat.lt_trichotomy (entryRank fs dir a) (entryRank fs dir b) with h | h | h
  · exact Or.inl (Or.inl h)
  · rcases charListLe_total (lowerStr a).data (lowerStr b).data with hc | hc
    · exact Or.inl (Or.inr ⟨h, hc⟩)
    · exact Or.inr (Or.inr ⟨h.symm, hc⟩)
  · exact Or.inr (Or.inl h)

/-- The sorted listing is pairwise ordered by the Python sort key. -/
theorem sortEntries_sorted (fs : FS) (dir : String) (entries : List String) :
    List.Sorted (fun a b => entryLe fs dir a b = true) (sortEntries fs dir entries) := by
  letI : IsTotal String (fun a b => entryLe fs dir a b = true) :=
    ⟨fun a b => entryLe_total fs dir a b⟩
  letI : IsTrans String (fun a b => entryLe fs dir a b = true) :=
    ⟨fun a b c => entryLe_trans fs dir⟩
  exact List.sorted_insertionSort _ entries

/-! ### Reachable-state invariants -/

/-- `refresh` establishes the structural panel invariant from any
input state. -/
theorem refresh_invariant (fs : FS) (p : FilePanel) :
    (refresh fs p).files.head? = some ".." ∧ 0 ≤ (refresh fs p).cursor ∧
      (refresh fs p).cursor < ((refresh fs p).files.length : Int) := by
  refine ⟨?_, refresh_cursor_in_range fs p⟩
  rw [refresh_files]
  rfl

/-- An in-bounds cursor makes the `files[cursor]` indexing succeed. -/
theorem currentChoice_isSome (p : FilePanel) (h0 : 0 ≤ p.cursor)
    (h1 : p.cursor < (p.files.length : Int)) : (currentChoice p).isSome = true := by
  unfold currentChoice
  rw [if_neg (by omega)]
  have hlt : p.cursor.toNat < p.files.length := by omega
  rw [List.get?_eq_getElem?, List.getElem?_eq_getElem hlt]
  rfl

/-- The structural invariant holds in every reachable state. -/
theorem reachable_structural_invariant {p : FilePanel} (h : Reachable p) :
    p.files.head? = some ".." ∧ 0 ≤ p.cursor ∧ p.cursor < (p.files.length : Int) := by
  induction h with
  | init fs path => exact refresh_invariant fs _
  | refreshStep fs h ih => exact refresh_invariant fs _
  | @moveStep delta mr q h ih =>
    have hne : q.files ≠ [] := by
      intro hnil
      rw [hnil] at ih
      simp at ih
    refine ⟨?_, move_cursor_in_range q delta mr hne⟩
    rw [move_cursor_files]
    exact ih.1
  | enterStep fs h ih =>
    rcases enter_eq_refresh_or_self fs _ with ⟨q, hq⟩ | hq
    · rw [hq]
      exact refresh_invariant fs q
    · rw [hq]
      exact ih
  | toggleStep h ih =>
    rw [toggle_select_files, toggle_select_cursor]
    exact ih

/-- Every `ReachableB` state is `Reachable`. -/
theorem ReachableB.toReachable {vr : Int} {p : FilePanel} (h : ReachableB vr p) :
    Reachable p := by
  induction h with
  | init fs path => exact .init fs path
  | refreshStep fs h ih => exact .refreshStep fs ih
  | moveStep delta h ih => exact .moveStep delta _ ih
  | enterStep fs h ih => exact .enterStep fs ih
  | toggleStep h ih => exact .toggleStep ih

/-- In every state reachable with a fixed bounded row count `vr ≥ 1`,
either the scroll offset was just reset to `0`, or the cursor sits in
the visible window. -/
theorem reachableB_window_invariant {vr : Int} (hvr : 1 ≤ vr) {p : FilePanel}
    (h : ReachableB vr p) :
    p.scroll_offset = 0 ∨
      (p.scroll_offset ≤ p.cursor ∧ p.cursor < p.scroll_offset + vr) := by
  induction h with
  | init fs path => exact Or.inl (refresh_scroll fs _)
  | refreshStep fs h ih => exact Or.inl (refresh_scroll fs _)
  | moveStep delta h ih => exact Or.inr (move_cursor_window _ delta vr hvr)
  | enterStep fs h ih =>
    rcases enter_eq_refresh_or_self fs _ with ⟨q, hq⟩ | hq
    · rw [hq]
      exact Or.inl (refresh_scroll fs q)
    · rw [hq]
      exact ih
  | toggleStep h ih =>
    rw [toggle_select_scroll, toggle_select_cursor]
    exact ih

/-! ### Aggregation: loop characterisation -/

theorem bool_eq_false {b : Bool} (h : ¬b = true) : b = false := by
  cases b
  · rfl
  · exact absurd rfl h

theorem aggStep_eq (fs : FS) (cache : SizeCache) (acc : Int × Bool) (q : String) :
    aggStep fs cache acc q =
      (acc.1 + aggContrib fs cache q, acc.2 || aggPendingFlag fs cache q) := by
  unfold aggStep aggContrib aggPendingFlag
  by_cases hf : fs.isFile q = true
  · rw [if_pos hf, if_pos hf]
    cases hg : fs.getsize q <;> simp [hf]
  · rw [if_neg hf, if_neg hf]
    rw [bool_eq_false hf]
    by_cases hd : fs.isDir q = true
    · rw [if_pos hd, if_pos hd, hd]
      cases hc : cacheFind cache q with
      | none =>
        have hfin : cacheFinal cache q = false := by simp [cacheFinal, hc]
        simp [hfin]
      | some v =>
        cases v with
        | none =>
          have hfin : cacheFinal cache q = false := by simp [cacheFinal, hc]
          simp [hfin]
        | some n =>
          have hfin : cacheFinal cache q = true := by simp [cacheFinal, hc]
          have hval : cacheValue cache q = n := by simp [cacheValue, hc]
          simp [hfin, hval]
    · rw [if_neg hd, if_neg hd, bool_eq_false hd]
      simp

theorem agg_foldl (fs : FS) (cache : SizeCache) (l : List String) (t : Int) (b : Bool) :
    l.foldl (aggStep fs cache) (t, b) =
      (t + (l.map (aggContrib fs cache)).sum, b || l.any (aggPendingFlag fs cache)) := by
  induction l generalizing t b with
  | nil => simp
  | cons q l ih =>
    rw [List.foldl_cons, aggStep_eq, ih]
    simp [add_assoc, Bool.or_assoc]

/-- Under a disjoint file/directory classification, the per-item
contribution splits into the spec's file and directory sums. -/
theorem sum_contrib_split (fs : FS) (cache : SizeCache)
    (hdisj : ∀ q, ¬(fs.isFile q = true ∧ fs.isDir q = true)) (l : List String) :
    (l.map (aggContrib fs cache)).sum = specFileTotal fs l + specDirTotal fs cache l := by
  induction l with
  | nil => simp [specFileTotal, specDirTotal]
  | cons q l ih =>
    unfold specFileTotal specDirTotal at ih ⊢
    by_cases hf : fs.isFile q = true
    · have hd : fs.isDir q = false := by
        rcases hb : fs.isDir q with _ | _
        · rfl
        · exact absurd ⟨hf, hb⟩ (hdisj q)
      simp only [List.map_cons, List.sum_cons, List.filter_cons, hf, hd,
        Bool.false_and, aggContrib, if_pos hf, if_true, if_false,
        Bool.false_eq_true, ih]
      ring
    · by_cases hd : fs.isDir q = true
      · simp only [List.map_cons, List.sum_cons, List.filter_cons, hf, hd,
          bool_eq_false hf, Bool.true_and, aggContrib, if_neg hf, if_pos hd,
          Bool.false_eq_true, if_false, ih]
        by_cases hfin : cacheFinal cache q = true
        · simp only [hfin, if_true, List.map_cons, List.sum_cons]
          ring
        · simp only [bool_eq_false hfin, Bool.false_eq_true, if_false, ite_self]
          ring
      · simp only [List.map_cons, List.sum_cons, List.filter_cons,
          bool_eq_false hf, bool_eq_false hd, Bool.false_and, aggContrib,
          if_neg hf, if_neg hd, Bool.false_eq_true, if_false, ih]
        ring

/-- Under a disjoint classification, the loop's pending test on one
item is exactly "is a directory whose cache entry is not final". -/
theorem aggPendingFlag_eq (fs : FS) (cache : SizeCache)
    (hdisj : ∀ q, ¬(fs.isFile q = true ∧ fs.isDir q = true)) (q : String) :
    aggPendingFlag fs cache q = (fs.isDir q && !cacheFinal cache q) := by
  unfold aggPendingFlag
  by_cases hd : fs.isDir q = true
  · have hf : fs.isFile q = false := by
      rcases hb : fs.isFile q with _ | _
      · rfl
      · exact absurd ⟨hb, hd⟩ (hdisj q)
    simp [hf, hd]
  · have hd' : fs.isDir q = false := by
      rcases hb : fs.isDir q with _ | _
      · rfl
      · exact absurd hb hd
    simp [hd']

/-! ### Transfer runner: loop characterisation -/

theorem buildCmd_eq_specInvocation (isDir : String → Bool)
    (operation src dst_path output_type : String) :
    buildCmd isDir operation src dst_path output_type =
      specInvocation isDir operation src dst_path output_type := by
  unfold buildCmd specInvocation effectiveDst
  split_ifs <;> rfl

theorem runOne_cmd (env : RunEnv) (operation src dst_path mode output_type : String) :
    (runOne env operation src dst_path mode output_type).2 =
      specInvocation env.isDir operation src dst_path output_type := by
  unfold runOne
  by_cases hm : mode = "attached"
  · rw [if_pos hm]
    cases env.attachedRun (buildCmd env.isDir operation src dst_path output_type) <;>
      exact buildCmd_eq_specInvocation _ _ _ _ _
  · rw [if_neg hm]
    cases env.detachedStart (buildCmd env.isDir operation src dst_path output_type) <;>
      exact buildCmd_eq_specInvocation _ _ _ _ _

theorem run_foldl (env : RunEnv) (operation dst_path mode output_type : String)
    (l : List String) (a : List String) (b : List (List String)) :
    l.foldl
      (fun acc src =>
        let r := runOne env operation src dst_path mode output_type
        (acc.1 ++ r.1, acc.2 ++ [r.2]))
      (a, b) =
      (a ++ (l.map (fun src => (runOne env operation src dst_path mode output_type).1)).flatten,
        b ++ l.map (fun src => (runOne env operation src dst_path mode output_type).2)) := by
  induction l generalizing a b with
  | nil => simp
  | cons src l ih =>
    rw [List.foldl_cons, ih]
    simp

theorem run_rclone_eq (env : RunEnv) (operation : String) (src_files : List String)
    (dst_path mode output_type : String) (hne : src_files ≠ []) :
    run_rclone env operation src_files dst_path mode output_type =
      ((src_files.map
          (fun src => (runOne env operation src dst_path mode output_type).1)).flatten,
        src_files.map
          (fun src => (runOne env operation src dst_path mode output_type).2)) := by
  unfold run_rclone
  rw [if_neg hne, run_foldl]
  simp

/-- Flattening a list of singleton blocks is a plain map. -/
theorem flatten_singletons {α β : Type} (f : α → β) (l : List α) :
    (l.map (fun x => [f x])).flatten = l.map f := by
  induction l with
  | nil => rfl
  | cons x l ih => simp [ih]

theorem rstrip_notFoundMsg : rstripNewline notFoundMsg = notFoundMsg := by decide

theorem rstrip_permMsg :
    rstripNewline s!"Cannot write log file: {LOGFILE_DEFAULT}" =
      "Cannot write log file: " ++ LOGFILE_DEFAULT := by decide

/-! ### Toggle-select case analysis -/

theorem toggle_select_of_none {p : FilePanel} (h : currentChoice p = none) :
    toggle_select p = p := by
  unfold toggle_select
  rw [h]

theorem toggle_select_of_dot {p : FilePanel} (h : currentChoice p = some "..") :
    toggle_select p = p := by
  unfold toggle_select
  rw [h]
  dsimp only
  rw [if_pos rfl]

theorem toggle_select_of_other {p : FilePanel} {c : String} (h : currentChoice p = some c)
    (hdot : ¬c = "..") :
    toggle_select p =
      (if joinPath p.path c ∈ p.selected then
        { p with selected := p.selected.erase (joinPath p.path c) }
      else { p with selected := joinPath p.path c :: p.selected }) := by
  unfold toggle_select
  rw [h]
  dsimp only
  rw [if_neg hdot]

/-! ### Listing-order corollaries -/

theorem entryLe_rank_le {fs : FS} {dir a b : String} (h : entryLe fs dir a b = true) :
    entryRank fs dir a ≤ entryRank fs dir b := by
  simp only [entryLe, Bool.or_eq_true, Bool.and_eq_true, decide_eq_true_iff] at h
  rcases h with h | ⟨h, _⟩
  · exact Nat.le_of_lt h
  · exact Nat.le_of_eq h

theorem entryLe_name_le {fs : FS} {dir a b : String} (h : entryLe fs dir a b = true)
    (he : entryRank fs dir a = entryRank fs dir b) :
    charListLe (lowerStr a).data (lowerStr b).data = true := by
  simp only [entryLe, Bool.or_eq_true, Bool.and_eq_true, decide_eq_true_iff] at h
  rcases h with h | ⟨_, h⟩
  · omega
  · exact h

/-! ### Aggregation characterisation -/

theorem aggregate_selection_size_eq (fs : FS) (cache : SizeCache) (src dst : FilePanel) :
    aggregate_selection_size fs cache src dst =
      (((selectionList src dst).map (aggContrib fs cache)).sum,
        (selectionList src dst).any (aggPendingFlag fs cache),
        (selectionList src dst).length) := by
  simp only [aggregate_selection_size, agg_foldl, zero_add, Bool.false_or]

/-! ### Claim theorems -/

/-- C1: the claim says a `current_item_size` call with the cursor on a
directory whose `size_cache` entry is pending must not spawn a second
background computation.  The code does spawn one: here the entry for
`/d/sub` is the pending sentinel (`cacheFind … = some none`), yet the
call's spawn flag is `true`, because the guard
`full in size_cache and size_cache[full] is not None` sends a pending
entry into the spawning branch exactly like an absent one. -/
theorem current_item_size_respawns_while_pending :
    cacheFind [("/d/sub", none)] "/d/sub" = some none ∧
      (current_item_size fsSub [("/d/sub", none)] pSub).2.2 = true := by decide

/-- C2 (counterexample): a state reachable with the bounded visible-row
count `2` — three `move_cursor` steps followed by a `refresh` — whose
cursor lies outside the visible window, because `refresh` resets
`scroll_offset` to `0` while keeping the clamped cursor. -/
theorem window_invariant_counterexample :
    ReachableB 2 pBad ∧
      ¬(pBad.scroll_offset ≤ pBad.cursor ∧ pBad.cursor < pBad.scroll_offset + 2) := by
  constructor
  · exact .refreshStep fsW (.moveStep 1 (.moveStep 1 (.moveStep 1 (.init fsW "/"))))
  · decide

/-- C2 (amended): in every `FilePanel` state reachable by the panel
operations with a bounded visible-row count `vr ≥ 1`, either the
scroll offset has just been reset to `0` (as `refresh` and `enter`
do, which can leave the cursor at or beyond `vr`), or the cursor lies
within the visible window `[scrollOffset, scrollOffset + vr)`; after
every `move_cursor` step the window bound itself holds. -/
theorem window_invariant_amended (vr : Int) (hvr : 1 ≤ vr) (p : FilePanel)
    (h : ReachableB vr p) :
    p.scroll_offset = 0 ∨
      (p.scroll_offset ≤ p.cursor ∧ p.cursor < p.scroll_offset + vr) :=
  reachableB_window_invariant hvr h

/-- Witness for the amended C2 at a concrete reachable state. -/
theorem window_invariant_amended_witness :
    (initPanel fsW "/").scroll_offset = 0 ∨
      ((initPanel fsW "/").scroll_offset ≤ (initPanel fsW "/").cursor ∧
        (initPanel fsW "/").cursor < (initPanel fsW "/").scroll_offset + 2) :=
  window_invariant_amended 2 (by decide) _ (.init fsW "/")

/-- C5: every `refresh` produces a listing with the parent marker at
index 0, all directories before all files (ranks are monotone along the
rest of the listing), and names in case-insensitive order within each
rank partition; on the scenario filesystem the listing is
`["..", "dirA", "fileB.txt"]`. -/
theorem refresh_listing_order (fs : FS) (p : FilePanel) :
    (refresh fs p).files.head? = some ".." ∧
      List.Pairwise
        (fun a b => entryRank fs p.path a ≤ entryRank fs p.path b)
        (refresh fs p).files.tail ∧
      List.Pairwise
        (fun a b => entryRank fs p.path a = entryRank fs p.path b →
          charListLe (lowerStr a).data (lowerStr b).data = true)
        (refresh fs p).files.tail ∧
      (initPanel fsScen "/").files = ["..", "dirA", "fileB.txt"] := by
  have htail : (refresh fs p).files.tail =
      sortEntries fs p.path ((fs.listdir p.path).getD []) := rfl
  have hs := sortEntries_sorted fs p.path ((fs.listdir p.path).getD [])
  refine ⟨rfl, ?_, ?_, by decide⟩
  · rw [htail]
    exact hs.imp fun hab => entryLe_rank_le hab
  · rw [htail]
    exact hs.imp fun hab he => entryLe_name_le hab he

/-- C6: on a panel with a non-empty listing, any `move_cursor` with a
bounded `visibleRows ≥ 1` leaves the cursor inside
`[0, len(entries) - 1]` and inside the visible window. -/
theorem move_cursor_bounds (p : FilePanel) (delta vr : Int) (hne : p.files ≠ [])
    (hvr : 1 ≤ vr) :
    (0 ≤ (move_cursor p delta (some vr)).cursor ∧
      (move_cursor p delta (some vr)).cursor ≤
        ((move_cursor p delta (some vr)).files.length : Int) - 1) ∧
      ((move_cursor p delta (some vr)).scroll_offset ≤ (move_cursor p delta (some vr)).cursor ∧
        (move_cursor p delta (some vr)).cursor <
          (move_cursor p delta (some vr)).scroll_offset + vr) := by
  have h1 := move_cursor_in_range p delta (some vr) hne
  refine ⟨⟨h1.1, ?_⟩, move_cursor_window p delta vr hvr⟩
  have h2 := h1.2
  omega

/-- Witness for C6 at a concrete panel. -/
theorem move_cursor_bounds_witness :
    (0 ≤ (move_cursor pSub 5 (some 1)).cursor ∧
      (move_cursor pSub 5 (some 1)).cursor ≤
        ((move_cursor pSub 5 (some 1)).files.length : Int) - 1) ∧
      ((move_cursor pSub 5 (some 1)).scroll_offset ≤ (move_cursor pSub 5 (some 1)).cursor ∧
        (move_cursor pSub 5 (some 1)).cursor <
          (move_cursor pSub 5 (some 1)).scroll_offset + 1) :=
  move_cursor_bounds pSub 5 1 (by decide) (by decide)

/-- C10: every reachable panel state keeps the parent marker at index 0
of a non-empty `files` list and the cursor inside `[0, len(files))`,
so the `files[cursor]` indexing done by `enter`, `toggle_select` and
`current_item_size` always succeeds. -/
theorem reachable_panel_never_faults {p : FilePanel} (h : Reachable p) :
    p.files.head? = some ".." ∧ 0 ≤ p.cursor ∧ p.cursor < (p.files.length : Int) ∧
      (currentChoice p).isSome = true := by
  obtain ⟨h1, h2, h3⟩ := reachable_structural_invariant h
  exact ⟨h1, h2, h3, currentChoice_isSome p h2 h3⟩

/-- Witness for C10 at a concrete reachable state. -/
theorem reachable_panel_never_faults_witness :
    (initPanel fsW "/").files.head? = some ".." ∧ 0 ≤ (initPanel fsW "/").cursor ∧
      (initPanel fsW "/").cursor < ((initPanel fsW "/").files.length : Int) ∧
      (currentChoice (initPanel fsW "/")).isSome = true :=
  reachable_panel_never_faults (Reachable.init fsW "/")

/-- C3: under a disjoint file/directory classification,
`aggregate_selection_size` returns an item count equal to the length of
the concatenation of the two panels' selection lists (a path selected
in both contributes twice), a total equal to the byte sizes of selected
files plus the cached final sizes of selected directories (missing or
pending directory entries excluded), and a pending flag that is true
iff some selected directory's cache entry is not yet a final value. -/
theorem aggregate_selection_size_spec (fs : FS) (cache : SizeCache) (src dst : FilePanel)
    (hdisj : ∀ q, ¬(fs.isFile q = true ∧ fs.isDir q = true)) :
    (aggregate_selection_size fs cache src dst).2.2 = (selectionList src dst).length ∧
      (aggregate_selection_size fs cache src dst).1 =
        specFileTotal fs (selectionList src dst) +
          specDirTotal fs cache (selectionList src dst) ∧
      ((aggregate_selection_size fs cache src dst).2.1 = true ↔
        ∃ q ∈ selectionList src dst, fs.isDir q = true ∧ cacheFinal cache q = false) := by
  rw [aggregate_selection_size_eq]
  refine ⟨rfl, ?_, ?_⟩
  · dsimp only
    exact sum_contrib_split fs cache hdisj (selectionList src dst)
  · dsimp only
    have hfun : aggPendingFlag fs cache = fun q => fs.isDir q && !cacheFinal cache q :=
      funext (aggPendingFlag_eq fs cache hdisj)
    rw [hfun]
    simp [List.any_eq_true, Bool.and_eq_true, Bool.not_eq_true']

/-- Witness for C3 on the spec's scenario: one selected 100-byte file
and one selected directory whose cached size is 500. -/
theorem aggregate_selection_size_spec_witness :
    (aggregate_selection_size fsScen cacheScen pSelFile pSelDir).2.2 =
        (selectionList pSelFile pSelDir).length ∧
      (aggregate_selection_size fsScen cacheScen pSelFile pSelDir).1 =
        specFileTotal fsScen (selectionList pSelFile pSelDir) +
          specDirTotal fsScen cacheScen (selectionList pSelFile pSelDir) ∧
      ((aggregate_selection_size fsScen cacheScen pSelFile pSelDir).2.1 = true ↔
        ∃ q ∈ selectionList pSelFile pSelDir,
          fsScen.isDir q = true ∧ cacheFinal cacheScen q = false) :=
  aggregate_selection_size_spec fsScen cacheScen pSelFile pSelDir
    (fun q h => by
      have h1 : q = "/fileB.txt" := by simpa [fsScen] using h.1
      have h2 : q = "/dirA" := by simpa [fsScen] using h.2
      subst h1
      exact absurd h2 (by decide))

/-- C4: for every source path passed to `run_rclone`, the invocation
built is exactly the tool name, the operation verb, the source and the
effective destination (destination joined with the source's base name
for a directory source, unchanged for a file source), plus `-P` for
progress output or `-vv` for log output; in particular copying the
directory `/src/photos` into `/dst` targets `/dst/photos`. -/
theorem run_rclone_builds_spec_invocations :
    (∀ (env : RunEnv) (operation : String) (src_files : List String)
        (dst_path mode output_type : String),
      (run_rclone env operation src_files dst_path mode output_type).2 =
        src_files.map
          (fun src => specInvocation env.isDir operation src dst_path output_type)) ∧
      specInvocation (fun q => q = "/src/photos") "copy" "/src/photos" "/dst" "progress" =
        ["rclone", "copy", "/src/photos", "/dst/photos", "-P"] := by
  constructor
  · intro env operation src_files dst_path mode output_type
    by_cases hne : src_files = []
    · subst hne
      rfl
    · rw [run_rclone_eq _ _ _ _ _ _ hne]
      simp only [runOne_cmd]
  · decide

/-- C7: on a panel whose selection set is duplicate-free,
`toggle_select` is its own inverse up to selection membership (toggling
twice restores the selected set exactly as a set), and toggling with
the cursor on the parent marker leaves the selection unchanged. -/
theorem toggle_select_self_inverse (p : FilePanel) (hnd : p.selected.Nodup) :
    (toggle_select (toggle_select p)).selected.toFinset = p.selected.toFinset ∧
      (currentChoice p = some ".." → (toggle_select p).selected = p.selected) := by
  constructor
  · cases hch : currentChoice p with
    | none => rw [toggle_select_of_none hch, toggle_select_of_none hch]
    | some c =>
      by_cases hdot : c = ".."
      · subst hdot
        rw [toggle_select_of_dot hch, toggle_select_of_dot hch]
      · by_cases hmem : joinPath p.path c ∈ p.selected
        · rw [toggle_select_of_other hch hdot, if_pos hmem]
          have hch1 :
              currentChoice { p with selected := p.selected.erase (joinPath p.path c) } =
                some c := hch
          rw [toggle_select_of_other hch1 hdot]
          have hnm : joinPath p.path c ∉ p.selected.erase (joinPath p.path c) :=
            hnd.not_mem_erase
          rw [if_neg hnm]
          ext a
          simp only [List.toFinset_cons, Finset.mem_insert, List.mem_toFinset,
            hnd.mem_erase_iff]
          constructor
          · rintro (rfl | ⟨-, ha⟩)
            · exact hmem
            · exact ha
          · intro ha
            by_cases haf : a = joinPath p.path c
            · exact Or.inl haf
            · exact Or.inr ⟨haf, ha⟩
        · rw [toggle_select_of_other hch hdot, if_neg hmem]
          have hch1 :
              currentChoice { p with selected := joinPath p.path c :: p.selected } =
                some c := hch
          rw [toggle_select_of_other hch1 hdot]
          have hm1 : joinPath p.path c ∈ joinPath p.path c :: p.selected :=
            List.mem_cons_self _ _
          rw [if_pos hm1]
          simp [List.erase_cons_head]
  · intro hch
    rw [toggle_select_of_dot hch]

/-- Witness for C7 at a concrete panel with the cursor on the parent
marker. -/
theorem toggle_select_self_inverse_witness :
    (toggle_select (toggle_select pDot)).selected.toFinset = pDot.selected.toFinset ∧
      (currentChoice pDot = some ".." → (toggle_select pDot).selected = pDot.selected) :=
  toggle_select_self_inverse pDot (by decide)

/-- C8: when the tool binary is absent in attached mode, `run_rclone`
appends exactly one "not found" line per attempted source path and
keeps looping to the next selected item. -/
theorem run_attached_tool_missing (env : RunEnv) (operation : String)
    (src_files : List String) (dst_path output_type : String) (hne : src_files ≠ [])
    (habs : ∀ cmd, env.attachedRun cmd = .notFound) :
    (run_rclone env operation src_files dst_path "attached" output_type).1 =
      src_files.map (fun _ => notFoundMsg) := by
  rw [run_rclone_eq _ _ _ _ _ _ hne]
  have h1 : ∀ src, (runOne env operation src dst_path "attached" output_type).1 =
      [notFoundMsg] := by
    intro src
    simp [runOne, habs, rstrip_notFoundMsg]
  simp only [h1]
  exact flatten_singletons (fun _ => notFoundMsg) src_files

/-- Witness for C8: two selected files, two "not found" lines. -/
theorem run_attached_tool_missing_witness :
    (run_rclone envAbsent "copy" ["/a.txt", "/b.txt"] "/dst" "attached" "progress").1 =
      [notFoundMsg, notFoundMsg] :=
  (run_attached_tool_missing envAbsent "copy" ["/a.txt", "/b.txt"] "/dst" "progress"
      (by decide) (fun _ => rfl)).trans (by decide)

/-- C9: when opening the detached log file raises `PermissionError`,
`run_rclone` appends exactly one error line per job, and that line
names the log file path; no exception escapes the call. -/
theorem run_detached_logfile_denied (env : RunEnv) (operation : String)
    (src_files : List String) (dst_path output_type : String) (hne : src_files ≠ [])
    (hperm : ∀ cmd, env.detachedStart cmd = .permDenied) :
    (run_rclone env operation src_files dst_path "detached" output_type).1 =
      src_files.map (fun _ => "Cannot write log file: " ++ LOGFILE_DEFAULT) := by
  rw [run_rclone_eq _ _ _ _ _ _ hne]
  have h1 : ∀ src, (runOne env operation src dst_path "detached" output_type).1 =
      ["Cannot write log file: " ++ LOGFILE_DEFAULT] := by
    intro src
    have hm : ¬(("detached" : String) = "attached") := by decide
    simp [runOne, hm, hperm, rstrip_permMsg]
  simp only [h1]
  exact flatten_singletons (fun _ => "Cannot write log file: " ++ LOGFILE_DEFAULT) src_files

/-- Witness for C9: a single detached job, one error line naming the
log file. -/
theorem run_detached_logfile_denied_witness :
    (run_rclone envPerm "move" ["/a.txt"] "/dst" "detached" "log").1 =
      ["Cannot write log file: /var/log/rclone_tui.log"] :=
  (run_detached_logfile_denied envPerm "move" ["/a.txt"] "/dst" "log"
      (by decide) (fun _ => rfl)).trans (by decide)

end RcloneTui
